import Mathlib

/-!
Verification of the encode-plan derivation and pipeline orchestration of
`src/processing/worker.py` (`ProcessThread`).

Modelling conventions:
* Python floats are modelled as exact rationals (`ℚ`).  All the quantities the
  claims are about (trim arithmetic, bitrate budgets, progress percentages,
  tempo chains) are computed by the source with ordinary arithmetic on values
  that are exactly representable, so the rational idealisation is faithful.
* Python `int(x)` (truncation toward zero) is `pyInt`.
* External effects (the ffmpeg/ffprobe processes, the filesystem move, the
  parsed `time=` lines of the encoder output) are inputs of the model,
  collected in `Env`; `runJob` is the shallow embedding of
  `ProcessThread.run`, returning the emitted progress values, the terminal
  result and the fate of the temporary artifacts.
-/

/-- Python `int()` applied to a float: truncation toward zero. -/
def pyInt (q : ℚ) : ℤ := if 0 ≤ q then ⌊q⌋ else ⌈q⌉

/-- `FADE_DUR = 1.5` from `ProcessThread.run`. -/
def FADE_DUR : ℚ := 3 / 2

/-- `EPS = 0.01`, the float-comparison slack from `ProcessThread.run`. -/
def EPS : ℚ := 1 / 100

/-- The derived trim plan (lines 135-179 of worker.py): input seek start,
input seek length, fade-in/out durations, fade-out start offset and the
pre-speed output clip duration. -/
structure TrimWindow where
  in_ss : ℚ
  in_t : ℚ
  vfade_in_d : ℚ
  vfade_out_d : ℚ
  vfade_out_st : ℚ
  output_clip_duration : ℚ
deriving DecidableEq

/-- Shallow embedding of the trim-window computation of `ProcessThread.run`
(lines 135-179): the exact-trim branch when fades are disabled, otherwise the
padded-trim branch with the `EPS`-slackened boundary tests of the source. -/
def trimWindow (disable_fades : Bool) (user_start user_end total_orig : ℚ) :
    TrimWindow :=
  if disable_fades then
    { in_ss := user_start
      in_t := user_end - user_start
      vfade_in_d := 0
      vfade_out_d := 0
      vfade_out_st := 0
      output_clip_duration := user_end - user_start }
  else
    let startPlan : ℚ × ℚ :=
      if user_start < FADE_DUR - EPS then (user_start, 0)
      else (user_start - FADE_DUR, FADE_DUR)
    let in_ss := startPlan.1
    let vfade_in_d := startPlan.2
    let endPlan : ℚ × ℚ :=
      if 0 < total_orig ∧ total_orig - FADE_DUR + EPS < user_end then
        (total_orig, 0)
      else (user_end + FADE_DUR, FADE_DUR)
    let adj_end := endPlan.1
    let vfade_out_d := endPlan.2
    let in_t := max 0 (adj_end - in_ss)
    let ocd := in_t
    let vfade_out_st := if 0 < vfade_out_d then max 0 (ocd - vfade_out_d) else ocd
    { in_ss := in_ss
      in_t := in_t
      vfade_in_d := vfade_in_d
      vfade_out_d := vfade_out_d
      vfade_out_st := vfade_out_st
      output_clip_duration := ocd }

/-- The caller-supplied job parameters (`ProcessThread.__init__`), plus the
two probe results the tier-4 estimator reads from the input file (its byte
size and the probed audio bitrate).  `intro_still_sec_req` is the raw
`intro_still_sec` argument, before the constructor zeroes it. -/
structure Job where
  start_time : ℚ
  end_time : ℚ
  speed_factor : ℚ
  quality_level : ℤ
  disable_fades : Bool
  intro_from_midpoint : Bool
  intro_still_sec_req : ℚ
  original_total_duration : ℚ
  src_bytes : ℤ
  probed_audio_kbps : Option ℤ
deriving DecidableEq

/-- `self.keep_highest_res = (q >= 4)` (line 34). -/
def Job.keep_highest_res (j : Job) : Bool := decide (4 ≤ j.quality_level)

/-- The fixed target-MB table of `__init__` (lines 36-45). -/
def Job.target_mb (j : Job) : Option ℚ :=
  if 4 ≤ j.quality_level then none
  else if j.quality_level = 3 then some 90
  else if j.quality_level = 2 then some 45
  else if j.quality_level = 1 then some 25
  else some 15

/-- The effective intro still duration after the constructor guard
(lines 72-73): zeroed unless `intro_from_midpoint` holds and the requested
duration is positive. -/
def Job.intro_still_sec (j : Job) : ℚ :=
  if j.intro_from_midpoint = false ∨ j.intro_still_sec_req ≤ 0 then 0
  else j.intro_still_sec_req

/-- Division by the speed factor, guarded exactly as the source guards it
(`x / speed if speed != 1.0 else x`).  The source raises on `speed = 0`;
the claims all assume a positive speed factor. -/
def speedDiv (speed q : ℚ) : ℚ := if speed ≠ 1 then q / speed else q

/-- `self.duration_corrected` as recomputed in `run` (line 192): the
speed-corrected, clamped-to-nonnegative output clip duration. -/
def Job.duration_corrected_run (j : Job) : ℚ :=
  max 0 (speedDiv j.speed_factor
    (trimWindow j.disable_fades j.start_time j.end_time
      j.original_total_duration).output_clip_duration)

/-- `intro_len_for_size` (lines 200-204). -/
def Job.intro_len_for_size (j : Job) : ℚ :=
  if j.disable_fades = false ∧ j.intro_from_midpoint = true ∧
      0 < j.intro_still_sec then
    max 0 j.intro_still_sec
  else 0

/-- `effective_duration` (line 205): core clip duration plus the intro still
length that will later be appended. -/
def Job.effective_duration (j : Job) : ℚ :=
  j.duration_corrected_run + j.intro_len_for_size

/-- Outcome of the bitrate-estimation block (lines 206-267): a derived video
bitrate, an early `finished_signal` failure with its message, or an uncaught
exception (the division by zero of the tier-4 fallback) that the outer
handler of `run` turns into an unexpected-error failure. -/
inductive EstimateResult where
  | ok (video_bitrate_kbps : ℤ)
  | err (msg : String)
  | exn (msg : String)
deriving DecidableEq

/-- Shallow embedding of the bitrate-estimation block (lines 206-267).
`probeRaises` models the only raising statement of the tier-4 `try` body,
`os.path.getsize` (line 209); when it raises, control moves to the fixed
52-MB fallback of the `except` arm (lines 243-252), which divides by
`1024 * effective_duration` without checking for a zero duration. -/
def estimateBitrate (j : Job) (probeRaises : Bool) (eff : ℚ) :
    EstimateResult :=
  if j.keep_highest_res then
    if probeRaises then
      let t_mb : ℚ := j.target_mb.getD 52
      let target_file_size_bits : ℚ := t_mb * 8 * 1024 * 1024
      let audio_bits : ℚ := 128 * 1024 * eff
      let video_bits : ℚ := target_file_size_bits - audio_bits
      if video_bits < 0 then
        .err "Video duration is too short for the target file size."
      else if eff = 0 then .exn "float division by zero"
      else .ok (pyInt (video_bits / (1024 * eff)))
    else
      let audio_kbps : ℤ := j.probed_audio_kbps.getD 128
      if eff ≤ 0 then .err "Selected video duration is zero."
      else
        let target_file_size_bits : ℚ := ((max 1 j.src_bytes : ℤ) : ℚ) * 8
        let audio_bits : ℚ := (audio_kbps : ℚ) * 1024 * eff
        let video_bits : ℚ := target_file_size_bits - audio_bits
        if video_bits ≤ 0 then .ok 300
        else .ok (max 300 (pyInt (video_bits / (1024 * eff))))
  else
    let t_mb : ℚ := j.target_mb.getD 52
    let target_file_size_bits : ℚ := t_mb * 8 * 1024 * 1024
    if eff ≤ 0 then .err "Selected video duration is zero."
    else
      let audio_bits : ℚ := 128 * 1024 * eff
      let video_bits : ℚ := target_file_size_bits - audio_bits
      if video_bits < 0 then
        .err "Video duration is too short for the target file size."
      else .ok (pyInt (video_bits / (1024 * eff)))

/-- `core_progress_weight` (line 618): 0.8 when the constructed intro still
duration is positive, else 1.0. -/
def coreWeight (j : Job) : ℚ := if 0 < j.intro_still_sec then 4 / 5 else 1

/-- The progress value computed for one parsed `time=` line of the CORE
encoder output (lines 630-631):
`int(max(0, min(100*w, (t / d) * 100 * w)))`. -/
def coreProgressVal (w d t : ℚ) : ℤ :=
  pyInt (max 0 (min (100 * w) (t / d * 100 * w)))

/-- The external world of one `run` execution: whether the tier-4 size probe
raises, each stage's process exit status, the elapsed seconds parsed from the
CORE stage's `time=` lines, the success of the core-to-output move of the
skip path, and how many output lines the INTRO and CONCAT processes print. -/
structure Env where
  probeRaises : Bool
  coreExit : Bool
  coreLines : List ℚ
  moveOk : Bool
  introExit : Bool
  introLines : ℕ
  concatExit : Bool
  concatLines : ℕ
deriving DecidableEq

/-- Terminal result of a job (`finished_signal`): overall success, or a
failure with its human-readable message. -/
inductive JobOutcome where
  | success
  | failure (msg : String)
deriving DecidableEq

/-- Observable summary of one `run` execution: the progress values emitted in
order, the terminal outcome, which stages were invoked, whether the core
artifact was moved to the final output path, and the fate of the temporary
files at exit (after the `finally` cleanup block, lines 725-738). -/
structure RunResult where
  emits : List ℤ
  outcome : JobOutcome
  ranCore : Bool
  ranIntro : Bool
  ranConcat : Bool
  movedCore : Bool
  concatListCreated : Bool
  concatListDeleted : Bool
  coreFileLeft : Bool
  introFileLeft : Bool
deriving DecidableEq

/-- The progress values emitted while draining the CORE process output
(lines 622-632): one value per parsed `time=` line, emitted only when
`duration_corrected > 0`. -/
def coreEmits (j : Job) (env : Env) : List ℤ :=
  if 0 < j.duration_corrected_run then
    env.coreLines.map (fun t => coreProgressVal (coreWeight j) j.duration_corrected_run t)
  else []

/-- Shallow embedding of `ProcessThread.run` (lines 121-738) at the level
the claims are about: trim plan, speed correction, effective duration,
bitrate estimation, the CORE stage with its weighted progress, the skip
condition (line 640), the INTRO and CONCAT stages with their fixed 95/99
markers, the 100 emissions, the terminal `finished_signal` messages, and the
`finally` cleanup.  The cleanup loop removes `core_path`, `intro_path` and
`concat_path`; the concat list is written to `concat_list_path` (line 693),
a variable the cleanup loop never touches, while `concat_path` stays `None`,
so the created concat list file is never deleted. -/
def runJob (j : Job) (env : Env) : RunResult :=
  let eff := j.effective_duration
  match estimateBitrate j env.probeRaises eff with
  | .err m =>
      { emits := [], outcome := .failure m, ranCore := false,
        ranIntro := false, ranConcat := false, movedCore := false,
        concatListCreated := false, concatListDeleted := false,
        coreFileLeft := false, introFileLeft := false }
  | .exn m =>
      { emits := [],
        outcome := .failure ("An unexpected error occurred: " ++ m ++ "."),
        ranCore := false, ranIntro := false, ranConcat := false,
        movedCore := false, concatListCreated := false,
        concatListDeleted := false, coreFileLeft := false,
        introFileLeft := false }
  | .ok _ =>
    let ems0 : List ℤ := 0 :: coreEmits j env
    if env.coreExit = false then
      { emits := ems0, outcome := .failure "Core encode failed (STEP 1/3).",
        ranCore := true, ranIntro := false, ranConcat := false,
        movedCore := false, concatListCreated := false,
        concatListDeleted := false, coreFileLeft := false,
        introFileLeft := false }
    else if j.disable_fades = true ∨ j.intro_still_sec ≤ 1 / 10000 then
      if env.moveOk then
        { emits := ems0 ++ [100], outcome := .success, ranCore := true,
          ranIntro := false, ranConcat := false, movedCore := true,
          concatListCreated := false, concatListDeleted := false,
          coreFileLeft := false, introFileLeft := false }
      else
        { emits := ems0, outcome := .failure "Failed to finalize output file.",
          ranCore := true, ranIntro := false, ranConcat := false,
          movedCore := false, concatListCreated := false,
          concatListDeleted := false, coreFileLeft := false,
          introFileLeft := false }
    else
      let ems1 := ems0 ++ List.replicate env.introLines 95
      if env.introExit = false then
        { emits := ems1, outcome := .failure "Intro encode failed (STEP 2/3).",
          ranCore := true, ranIntro := true, ranConcat := false,
          movedCore := false, concatListCreated := false,
          concatListDeleted := false, coreFileLeft := false,
          introFileLeft := false }
      else
        let ems2 := ems1 ++ List.replicate env.concatLines 99
        if env.concatExit = false then
          { emits := ems2, outcome := .failure "Concat failed (STEP 3/3).",
            ranCore := true, ranIntro := true, ranConcat := true,
            movedCore := false, concatListCreated := true,
            concatListDeleted := false, coreFileLeft := false,
            introFileLeft := false }
        else
          { emits := ems2 ++ [100], outcome := .success, ranCore := true,
            ranIntro := true, ranConcat := true, movedCore := false,
            concatListCreated := true, concatListDeleted := false,
            coreFileLeft := false, introFileLeft := false }

/-- The fade-plan property exactly as claim C2 words it (for comparison with
the plan the code computes): fade-in suppressed exactly when
`user start < FADE_DURATION`, fade-out suppressed exactly when
`user end > total - FADE_DURATION`, with the seek window ending at the user
end in the suppressed case. -/
def claimFadePlan (us ue total : ℚ) : Prop :=
  ((FADE_DUR ≤ us →
      (trimWindow false us ue total).in_ss = us - FADE_DUR ∧
      (trimWindow false us ue total).vfade_in_d = FADE_DUR) ∧
   (us < FADE_DUR →
      (trimWindow false us ue total).in_ss = us ∧
      (trimWindow false us ue total).vfade_in_d = 0)) ∧
  ((total - FADE_DUR < ue →
      (trimWindow false us ue total).vfade_out_d = 0 ∧
      (trimWindow false us ue total).in_ss + (trimWindow false us ue total).in_t = ue) ∧
   (ue ≤ total - FADE_DUR →
      (trimWindow false us ue total).vfade_out_d = FADE_DUR ∧
      (trimWindow false us ue total).in_ss + (trimWindow false us ue total).in_t =
        ue + FADE_DUR))

/-- A tier-0 job selecting 900 seconds of video. -/
def c3job : Job :=
  { start_time := 0, end_time := 900, speed_factor := 1, quality_level := 0,
    disable_fades := true, intro_from_midpoint := false,
    intro_still_sec_req := 0, original_total_duration := 1000,
    src_bytes := 0, probed_audio_kbps := none }

/-- An all-success environment with no parsed progress lines. -/
def envAllOk : Env :=
  { probeRaises := false, coreExit := true, coreLines := [], moveOk := true,
    introExit := true, introLines := 1, concatExit := true, concatLines := 1 }

/-- A job whose user window lies entirely beyond the known total duration:
the padded trim collapses to a zero-length core clip, but a 2-second
from-midpoint intro is requested. -/
def c4job : Job :=
  { start_time := 20, end_time := 21, speed_factor := 1, quality_level := 2,
    disable_fades := false, intro_from_midpoint := true,
    intro_still_sec_req := 2, original_total_duration := 10,
    src_bytes := 0, probed_audio_kbps := none }

/-- A degenerate job: the selected window is empty (start = end) and no
intro is requested. -/
def c4wjob : Job :=
  { start_time := 5, end_time := 5, speed_factor := 1, quality_level := 2,
    disable_fades := true, intro_from_midpoint := false,
    intro_still_sec_req := 0, original_total_duration := 100,
    src_bytes := 0, probed_audio_kbps := none }

/-- The stage weight as claim C5 words it: 0.8 exactly when an INTRO stage
will follow CORE, i.e. when the skip condition of line 640 does not hold. -/
def claimCoreWeight (j : Job) : ℚ :=
  if j.disable_fades = false ∧ 1 / 10000 < j.intro_still_sec then 4 / 5 else 1

/-- The emitted CORE progress as claim C5 words it: the exact rational
`min(100 w, (elapsed/coreDuration) 100 w)` with the claim's weight. -/
def claimCoreProgress (j : Job) (d t : ℚ) : ℚ :=
  min (100 * claimCoreWeight j) (t / d * 100 * claimCoreWeight j)

/-- A job with fades disabled but a from-midpoint intro still requested:
the constructor keeps `intro_still_sec = 2`, so the code weights CORE at
0.8, yet the skip condition guarantees no INTRO stage will follow. -/
def c5job : Job :=
  { start_time := 0, end_time := 10, speed_factor := 1, quality_level := 2,
    disable_fades := true, intro_from_midpoint := true,
    intro_still_sec_req := 2, original_total_duration := 100,
    src_bytes := 0, probed_audio_kbps := none }

/-- An all-success environment whose CORE process prints one elapsed time,
5 seconds. -/
def env5 : Env :=
  { probeRaises := false, coreExit := true, coreLines := [5], moveOk := true,
    introExit := true, introLines := 0, concatExit := true, concatLines := 0 }

/-- A fade-disabled 30-second tier-2 job with no intro. -/
def c7job : Job :=
  { start_time := 0, end_time := 30, speed_factor := 1, quality_level := 2,
    disable_fades := true, intro_from_midpoint := false,
    intro_still_sec_req := 0, original_total_duration := 100,
    src_bytes := 0, probed_audio_kbps := none }

/-- An environment whose CORE process prints elapsed times 30 s then 10 s
(a non-monotone parse) and then exits with a failure. -/
def env9 : Env :=
  { probeRaises := false, coreExit := false, coreLines := [30, 10],
    moveOk := true, introExit := true, introLines := 0, concatExit := true,
    concatLines := 0 }

/-- A fades-enabled job with a 2-second from-midpoint intro, driving the
full CORE, INTRO, CONCAT pipeline. -/
def c1job : Job :=
  { start_time := 10, end_time := 40, speed_factor := 1, quality_level := 2,
    disable_fades := false, intro_from_midpoint := true,
    intro_still_sec_req := 2, original_total_duration := 120,
    src_bytes := 0, probed_audio_kbps := none }

/-- A fades-enabled job requesting a positive 5-second intro but without
the from-midpoint flag. -/
def c10job : Job :=
  { start_time := 10, end_time := 40, speed_factor := 1, quality_level := 2,
    disable_fades := false, intro_from_midpoint := false,
    intro_still_sec_req := 5, original_total_duration := 120,
    src_bytes := 0, probed_audio_kbps := none }

/-- Ties-to-even rounding of a rational to the nearest integer, modelling
Python's `round` on exactly representable values. -/
def roundTiesEven (q : ℚ) : ℤ :=
  if q - ⌊q⌋ < 1 / 2 then ⌊q⌋
  else if 1 / 2 < q - ⌊q⌋ then ⌊q⌋ + 1
  else if Even ⌊q⌋ then ⌊q⌋ else ⌊q⌋ + 1

/-- Python `round(f, 3)`: round to the nearest multiple of 1/1000. -/
def round3 (q : ℚ) : ℚ := (roundTiesEven (q * 1000) : ℚ) / 1000

/-- The up-decomposition loop of the tempo chain (lines 460-463 of
worker.py): `while s > 2.0: chain.append(2.0); s /= 2.0` then
`chain.append(s)`. -/
def chainUp (s : ℚ) : List ℚ :=
  if h : 2 < s then 2 :: chainUp (s / 2) else [s]
termination_by ⌈s⌉₊
decreasing_by
  have h3 : 2 < ⌈s⌉₊ := Nat.lt_ceil.mpr (by push_cast; linarith)
  have hle : s ≤ (⌈s⌉₊ : ℚ) := Nat.le_ceil s
  have hstep : ⌈s / 2⌉₊ ≤ ⌈s⌉₊ - 1 := by
    refine Nat.ceil_le.mpr ?_
    have hc : ((⌈s⌉₊ - 1 : ℕ) : ℚ) = (⌈s⌉₊ : ℚ) - 1 := by
      have h1 : 1 ≤ ⌈s⌉₊ := by omega
      push_cast [h1]
      ring
    rw [hc]
    linarith
  omega

/-- The down-decomposition loop (lines 464-467):
`while s < 0.5: chain.append(0.5); s /= 0.5` then `chain.append(s)`.
The source loop does not terminate for `s ≤ 0` (the claims all assume a
positive speed factor); the embedding totalises that unreachable case by
returning `[s]`. -/
def chainDown (s : ℚ) : List ℚ :=
  if h : 0 < s ∧ s < 1 / 2 then (1 / 2) :: chainDown (s / (1 / 2)) else [s]
termination_by ⌈s⁻¹⌉₊
decreasing_by
  obtain ⟨h0, h1⟩ := h
  have hinv : (s / (1 / 2))⁻¹ = s⁻¹ / 2 := by field_simp
  rw [hinv]
  have h2 : 2 < s⁻¹ := by
    rw [inv_eq_one_div, lt_div_iff₀ h0]
    linarith
  have h3 : 2 < ⌈s⁻¹⌉₊ := Nat.lt_ceil.mpr (by push_cast; linarith)
  have hle : s⁻¹ ≤ (⌈s⁻¹⌉₊ : ℚ) := Nat.le_ceil _
  have hstep : ⌈s⁻¹ / 2⌉₊ ≤ ⌈s⁻¹⌉₊ - 1 := by
    refine Nat.ceil_le.mpr ?_
    have hc : ((⌈s⁻¹⌉₊ - 1 : ℕ) : ℚ) = (⌈s⁻¹⌉₊ : ℚ) - 1 := by
      have hg : 1 ≤ ⌈s⁻¹⌉₊ := by omega
      push_cast [hg]
      ring
    rw [hc]
    linarith
  omega

/-- The clamp applied to each kept chain element (line 468):
`min(2.0, max(0.5, round(f, 3)))`. -/
def clampTempo (f : ℚ) : ℚ := min 2 (max (1 / 2) (round3 f))

/-- The filter-and-clamp of one raw chain element (line 468): elements
within 1e-3 of 1.0 are dropped, the rest are rounded to 3 decimals and
clamped into [0.5, 2.0]. -/
def tempoKeep (f : ℚ) : Option ℚ :=
  if 1 / 1000 < |f - 1| then some (clampTempo f) else none

/-- The final atempo chain of lines 456-469 for a given speed factor. -/
def atempoChain (speed : ℚ) : List ℚ :=
  (if 1 ≤ speed then chainUp speed else chainDown speed).filterMap tempoKeep

/-! Theorems. -/

theorem pyInt_eq_floor (q : ℚ) (h : 0 ≤ q) : pyInt q = ⌊q⌋ := by
  simp [pyInt, h]

theorem pyInt_nonneg (q : ℚ) (h : 0 ≤ q) : 0 ≤ pyInt q := by
  rw [pyInt_eq_floor q h]
  exact Int.floor_nonneg.mpr h

theorem intro_still_sec_nonneg (j : Job) : 0 ≤ j.intro_still_sec := by
  rw [Job.intro_still_sec]
  split
  · exact le_refl 0
  · rename_i h
    push_neg at h
    exact le_of_lt h.2

theorem duration_corrected_run_nonneg (j : Job) : 0 ≤ j.duration_corrected_run :=
  le_max_left 0 _

theorem intro_len_for_size_nonneg (j : Job) : 0 ≤ j.intro_len_for_size := by
  rw [Job.intro_len_for_size]
  split
  · exact le_max_left 0 _
  · exact le_refl 0

theorem effective_duration_nonneg (j : Job) : 0 ≤ j.effective_duration :=
  add_nonneg (duration_corrected_run_nonneg j) (intro_len_for_size_nonneg j)

/-- Claim C8: for every quality tier 0-3 the derived target size in MB is
exactly the fixed table value (tier 3 gives 90, tier 2 gives 45, tier 1
gives 25, tier 0 gives 15), and for tier 4 no fixed MB target is assigned. -/
theorem C8_target_mb_table (j : Job) :
    (j.quality_level = 0 → j.target_mb = some 15) ∧
    (j.quality_level = 1 → j.target_mb = some 25) ∧
    (j.quality_level = 2 → j.target_mb = some 45) ∧
    (j.quality_level = 3 → j.target_mb = some 90) ∧
    (j.quality_level = 4 → j.target_mb = none) := by
  refine ⟨?_, ?_, ?_, ?_, ?_⟩ <;> intro h <;> simp [Job.target_mb, h]

/-- Claim C2 is false as stated: at user start 1.495 (inside the
`EPS`-slack band just below `FADE_DURATION = 1.5`) the code takes the padded
branch, seeking to `-0.005` with a full 1.5 s fade-in, while the claim
requires seek start 1.495 and no fade-in. -/
theorem C2_counterexample : ¬ claimFadePlan (1495 / 1000) 10 100 := by
  intro h
  have h2 := (h.1.2 (by norm_num [FADE_DUR])).2
  norm_num [trimWindow, FADE_DUR, EPS] at h2

/-- Claim C2 (amended): with fades enabled the start side is suppressed
exactly when `user start < FADE_DURATION - EPS` (with `EPS = 0.01`), and the
end side is suppressed exactly when the total duration is known (positive)
and `user end > total - FADE_DURATION + EPS`; in the end-suppressed case the
seek window is clipped to the total duration (not to the user end), and in
the padded case it extends `FADE_DURATION` past the user end (never seeking
before the computed start). -/
theorem C2_trim_plan (us ue total : ℚ) :
    (us < FADE_DUR - EPS →
      (trimWindow false us ue total).in_ss = us ∧
      (trimWindow false us ue total).vfade_in_d = 0) ∧
    (FADE_DUR - EPS ≤ us →
      (trimWindow false us ue total).in_ss = us - FADE_DUR ∧
      (trimWindow false us ue total).vfade_in_d = FADE_DUR) ∧
    ((0 < total ∧ total - FADE_DUR + EPS < ue) →
      (trimWindow false us ue total).vfade_out_d = 0 ∧
      (trimWindow false us ue total).in_t =
        max 0 (total - (trimWindow false us ue total).in_ss)) ∧
    (¬ (0 < total ∧ total - FADE_DUR + EPS < ue) →
      (trimWindow false us ue total).vfade_out_d = FADE_DUR ∧
      (trimWindow false us ue total).in_t =
        max 0 (ue + FADE_DUR - (trimWindow false us ue total).in_ss)) := by
  refine ⟨fun h => ?_, fun h => ?_, fun h => ?_, fun h => ?_⟩ <;>
    simp only [trimWindow, Bool.false_eq_true, if_false] <;>
    first
      | (rw [if_pos h] <;> simp)
      | (rw [if_neg (not_lt.mpr h)] <;> simp)
      | (split_ifs <;> simp)

/-- Claim C3 is false as stated: in tiered mode the derived bitrate is not
floored at 300 kbps.  A tier-0 (15 MB) job of 900 seconds leaves a bit
budget of 8 kbps for video, and the estimator returns exactly that. -/
theorem C3_counterexample :
    c3job.effective_duration = 900 ∧
    estimateBitrate c3job false c3job.effective_duration = .ok 8 ∧
    ¬ (300 ≤ (8 : ℤ)) := by
  have he : c3job.effective_duration = 900 := by
    norm_num [Job.effective_duration, Job.duration_corrected_run,
      Job.intro_len_for_size, Job.intro_still_sec, speedDiv, trimWindow, c3job]
  refine ⟨he, ?_, by decide⟩
  rw [he]
  norm_num [estimateBitrate, Job.keep_highest_res, Job.target_mb, pyInt, c3job]

/-- Claim C3 (amended): the 300 kbps floor is enforced only in tier-4
size-matching mode when the size probe succeeds.  In tiered modes 0-3 the
derived bitrate is merely nonnegative (the floor is not applied), and when
the audio-alone bit budget exceeds the tier's target size the estimator
returns the terminal too-short error rather than a negative bitrate. -/
theorem C3_bitrate_floor (j : Job) (pr : Bool) (eff : ℚ) :
    (j.keep_highest_res = true → pr = false →
      ∀ b, estimateBitrate j pr eff = .ok b → 300 ≤ b) ∧
    (j.keep_highest_res = false →
      (∀ b, estimateBitrate j pr eff = .ok b → 0 ≤ b) ∧
      (0 < eff → j.target_mb.getD 52 * 8 * 1024 * 1024 < 128 * 1024 * eff →
        estimateBitrate j pr eff =
          .err "Video duration is too short for the target file size.")) := by
  refine ⟨fun hk hp b hb => ?_, fun hk => ⟨fun b hb => ?_, fun he hlt => ?_⟩⟩
  · subst hp
    simp only [estimateBitrate, hk, Bool.false_eq_true, eq_self_iff_true,
      if_true, if_false] at hb
    split_ifs at hb with h1 h2
    · injection hb with h
      omega
    · injection hb with h
      rw [← h]
      exact le_max_left _ _
  · simp only [estimateBitrate, hk, Bool.false_eq_true, if_false] at hb
    split_ifs at hb with h1 h2
    · injection hb with h
      rw [← h]
      push_neg at h1 h2
      exact pyInt_nonneg _ (div_nonneg h2 (by positivity))
  · simp only [estimateBitrate, hk, Bool.false_eq_true, if_false]
    rw [if_neg (not_le.mpr he), if_pos (by linarith)]

/-- Claim C4 is false as stated: a job whose derived output clip duration is
zero is not a terminal error when an intro still is requested — the
effective duration (clip + intro) is positive, bitrate estimation succeeds,
the encoder is invoked, and the job can finish successfully. -/
theorem C4_counterexample :
    (trimWindow c4job.disable_fades c4job.start_time c4job.end_time
      c4job.original_total_duration).output_clip_duration = 0 ∧
    (runJob c4job envAllOk).ranCore = true ∧
    (runJob c4job envAllOk).outcome = .success := by
  have htrim : trimWindow c4job.disable_fades c4job.start_time c4job.end_time
      c4job.original_total_duration =
      { in_ss := 37 / 2, in_t := 0, vfade_in_d := 3 / 2, vfade_out_d := 0,
        vfade_out_st := 0, output_clip_duration := 0 } := by
    norm_num [trimWindow, FADE_DUR, EPS, c4job]
  have hintro : c4job.intro_still_sec = 2 := by
    norm_num [Job.intro_still_sec, c4job]
  have heff : c4job.effective_duration = 2 := by
    rw [Job.effective_duration, Job.duration_corrected_run, htrim,
      Job.intro_len_for_size, hintro]
    norm_num [speedDiv, c4job]
  have hest : estimateBitrate c4job envAllOk.probeRaises
      c4job.effective_duration = .ok 184192 := by
    rw [heff]
    norm_num [estimateBitrate, Job.keep_highest_res, Job.target_mb, pyInt,
      envAllOk, c4job]
  refine ⟨by rw [htrim], ?_, ?_⟩ <;>
    · rw [runJob, hest]
      norm_num [Job.intro_still_sec, c4job, envAllOk]

/-- The estimator at a zero effective duration, on every path: the two
checked paths fail with the zero-duration message, the tier-4 fallback
divides by zero. -/
theorem estimateBitrate_zero (j : Job) (pr : Bool) :
    estimateBitrate j pr 0 =
      (if j.keep_highest_res = true ∧ pr = true then
        .exn "float division by zero"
      else .err "Selected video duration is zero.") := by
  rcases hk : j.keep_highest_res with _ | _ <;>
    rcases hp : pr with _ | _ <;>
      simp only [estimateBitrate, hk, hp, Bool.false_eq_true, Bool.true_eq_false,
        if_false, if_true, eq_self_iff_true, true_and, false_and, and_true,
        and_false, and_self]
  · rw [if_pos (le_refl (0 : ℚ))]
  · rw [if_pos (le_refl (0 : ℚ))]
  · rw [if_pos (le_refl (0 : ℚ))]
  · have hq : (4 : ℤ) ≤ j.quality_level := by
      have := hk
      rw [Job.keep_highest_res] at this
      exact of_decide_eq_true this
    have ht : j.target_mb = none := by
      rw [Job.target_mb, if_pos hq]
    rw [ht]
    norm_num

/-- Claim C4 (amended): a job whose derived *effective* duration (output
clip duration plus intro still length) is zero — the output clip duration
itself is never negative after clamping, and a zero clip with a positive
intro is not an error — terminates in the bitrate-estimation step before any
encoder invocation: with the failure message
`Selected video duration is zero.` on the tiered and tier-4 probed paths,
and with an unexpected-error failure (a division by zero) on the tier-4
probe-failure fallback.  The zero duration is never clamped upward. -/
theorem C4_zero_duration_terminal (j : Job) (env : Env)
    (h : j.effective_duration ≤ 0) :
    (runJob j env).ranCore = false ∧
    (runJob j env).outcome = .failure
      (if j.keep_highest_res = true ∧ env.probeRaises = true then
        "An unexpected error occurred: float division by zero."
      else "Selected video duration is zero.") := by
  have h0 : j.effective_duration = 0 :=
    le_antisymm h (effective_duration_nonneg j)
  rw [runJob, h0, estimateBitrate_zero]
  by_cases hc : j.keep_highest_res = true ∧ env.probeRaises = true
  · rw [if_pos hc, if_pos hc]
    exact ⟨rfl, rfl⟩
  · rw [if_neg hc, if_neg hc]
    exact ⟨rfl, rfl⟩

/-- Witness for the amended C4 at a concrete degenerate job. -/
theorem C4_zero_duration_terminal_witness :
    c4wjob.effective_duration ≤ 0 ∧
    ((runJob c4wjob envAllOk).ranCore = false ∧
     (runJob c4wjob envAllOk).outcome = .failure
       (if c4wjob.keep_highest_res = true ∧ envAllOk.probeRaises = true then
         "An unexpected error occurred: float division by zero."
       else "Selected video duration is zero.")) := by
  have h : c4wjob.effective_duration ≤ 0 := by
    norm_num [Job.effective_duration, Job.duration_corrected_run,
      Job.intro_len_for_size, Job.intro_still_sec, speedDiv, trimWindow, c4wjob]
  exact ⟨h, C4_zero_duration_terminal c4wjob envAllOk h⟩

/-- Claim C5 is false as stated: halfway through the 10-second core clip of
`c5job` the code computes and emits 40 (weight 0.8 because the constructed
intro still duration is positive) while the claim's formula demands 50
(weight 1.0 because no INTRO stage will follow), and the emitted value is
the integer truncation of the formula, not the exact rational. -/
theorem C5_counterexample :
    coreWeight c5job = 4 / 5 ∧
    claimCoreWeight c5job = 1 ∧
    coreProgressVal (coreWeight c5job) 10 5 = 40 ∧
    claimCoreProgress c5job 10 5 = 50 ∧
    ¬ ((coreProgressVal (coreWeight c5job) 10 5 : ℚ) =
        claimCoreProgress c5job 10 5) ∧
    (runJob c5job env5).emits = [0, 40, 100] := by
  have hi : c5job.intro_still_sec = 2 := by
    norm_num [Job.intro_still_sec, c5job]
  have hw : coreWeight c5job = 4 / 5 := by
    rw [coreWeight, hi]
    norm_num
  have hcw : claimCoreWeight c5job = 1 := by
    rw [claimCoreWeight]
    norm_num [c5job]
  have hdf : c5job.disable_fades = true := rfl
  have hd5 : c5job.duration_corrected_run = 10 := by
    norm_num [Job.duration_corrected_run, speedDiv, trimWindow, c5job]
  have heff5 : c5job.effective_duration = 10 := by
    rw [Job.effective_duration, hd5]
    norm_num [Job.intro_len_for_size, hdf]
  have hest5 : estimateBitrate c5job env5.probeRaises
      c5job.effective_duration = .ok 36736 := by
    rw [heff5]
    norm_num [estimateBitrate, Job.keep_highest_res, Job.target_mb, pyInt,
      env5, c5job]
  refine ⟨hw, hcw, ?_, ?_, ?_, ?_⟩
  · rw [hw]
    norm_num [coreProgressVal, pyInt]
  · simp only [claimCoreProgress, hcw]
    norm_num
  · simp only [claimCoreProgress, hcw, hw]
    norm_num [coreProgressVal, pyInt]
  · rw [runJob, hest5]
    norm_num [env5, coreEmits, hd5, hw, hdf, coreProgressVal, pyInt]

/-- Claim C5 (amended): during CORE, each emitted progress value is the
integer floor of `min(100 w, (elapsed/coreDuration) 100 w)` where the
weight `w` is 0.8 exactly when the job's constructed intro still duration
is positive — a condition that can hold even when no INTRO stage will
follow (fades disabled, or an intro at or below the 0.0001 s skip
threshold) — and 1.0 otherwise. -/
theorem C5_core_progress (j : Job) (d t : ℚ) (ht : 0 ≤ t) (hd : 0 < d) :
    coreProgressVal (coreWeight j) d t =
      ⌊min (100 * coreWeight j) (t / d * 100 * coreWeight j)⌋ := by
  have hw : 0 < coreWeight j := by
    rw [coreWeight]
    split <;> norm_num
  have h1 : 0 ≤ min (100 * coreWeight j) (t / d * 100 * coreWeight j) :=
    le_min (by positivity) (by positivity)
  rw [coreProgressVal, max_eq_right h1, pyInt_eq_floor _ h1]

/-- Witness for the amended C5: halfway through a 10-second core clip of
`c5job` the emitted value is the floor of the weighted formula. -/
theorem C5_core_progress_witness :
    0 ≤ (5 : ℚ) ∧ 0 < (10 : ℚ) ∧
    coreProgressVal (coreWeight c5job) 10 5 =
      ⌊min (100 * coreWeight c5job) (5 / 10 * 100 * coreWeight c5job)⌋ :=
  ⟨by norm_num, by norm_num,
    C5_core_progress c5job 10 5 (by norm_num) (by norm_num)⟩

/-- Behaviour of `run` under the skip condition of line 640: INTRO and
CONCAT never run, and when CORE ran, its process succeeded and the
core-to-output move succeeded, the job succeeds having moved the core
artifact to the final output path. -/
theorem runJob_skip (j : Job) (env : Env)
    (hskip : j.disable_fades = true ∨ j.intro_still_sec ≤ 1 / 10000) :
    (runJob j env).ranIntro = false ∧ (runJob j env).ranConcat = false ∧
    ((runJob j env).ranCore = true → env.coreExit = true →
      env.moveOk = true →
      (runJob j env).outcome = .success ∧ (runJob j env).movedCore = true) := by
  rcases hest : estimateBitrate j env.probeRaises j.effective_duration with
      b | m | m
  · rw [runJob]
    simp only [hest]
    rcases env.coreExit with _ | _
    · rw [if_pos rfl]
      exact ⟨rfl, rfl, fun _ h2 _ => Bool.noConfusion h2⟩
    · rw [if_neg (by simp : ¬ (true = false)), if_pos hskip]
      rcases env.moveOk with _ | _
      · rw [if_neg (by simp : ¬ (false = true))]
        exact ⟨rfl, rfl, fun _ _ h3 => Bool.noConfusion h3⟩
      · rw [if_pos rfl]
        exact ⟨rfl, rfl, fun _ _ _ => ⟨rfl, rfl⟩⟩
  · rw [runJob]
    simp [hest]
  · rw [runJob]
    simp [hest]

/-- Claim C7: for every job in which fades are disabled or no positive
still-intro duration was requested, after a successful CORE stage the core
artifact is moved directly to the final output path and the job terminates
successfully; the INTRO and CONCAT stages never run. -/
theorem C7_skip_delivers_core (j : Job) (env : Env)
    (hskip : j.disable_fades = true ∨ j.intro_still_sec_req ≤ 0)
    (hran : (runJob j env).ranCore = true)
    (hcore : env.coreExit = true)
    (hmove : env.moveOk = true) :
    (runJob j env).outcome = .success ∧
    (runJob j env).movedCore = true ∧
    (runJob j env).ranIntro = false ∧
    (runJob j env).ranConcat = false := by
  have h0 : j.disable_fades = true ∨ j.intro_still_sec ≤ 1 / 10000 := by
    rcases hskip with h | h
    · exact Or.inl h
    · right
      rw [Job.intro_still_sec, if_pos (Or.inr h)]
      norm_num
  obtain ⟨hni, hnc, hs⟩ := runJob_skip j env h0
  exact ⟨(hs hran hcore hmove).1, (hs hran hcore hmove).2, hni, hnc⟩

/-- Witness for C7 at a concrete fade-disabled job with every external step
succeeding. -/
theorem C7_skip_delivers_core_witness :
    (c7job.disable_fades = true ∨ c7job.intro_still_sec_req ≤ 0) ∧
    (runJob c7job envAllOk).ranCore = true ∧
    envAllOk.coreExit = true ∧ envAllOk.moveOk = true ∧
    ((runJob c7job envAllOk).outcome = .success ∧
     (runJob c7job envAllOk).movedCore = true ∧
     (runJob c7job envAllOk).ranIntro = false ∧
     (runJob c7job envAllOk).ranConcat = false) := by
  have heff : c7job.effective_duration = 30 := by
    norm_num [Job.effective_duration, Job.duration_corrected_run,
      Job.intro_len_for_size, Job.intro_still_sec, speedDiv, trimWindow, c7job]
  have hest : estimateBitrate c7job envAllOk.probeRaises
      c7job.effective_duration = .ok 12160 := by
    rw [heff]
    norm_num [estimateBitrate, Job.keep_highest_res, Job.target_mb, pyInt,
      envAllOk, c7job]
  have hran : (runJob c7job envAllOk).ranCore = true := by
    rw [runJob, hest]
    norm_num [Job.intro_still_sec, c7job, envAllOk]
  exact ⟨Or.inl rfl, hran, rfl, rfl,
    C7_skip_delivers_core c7job envAllOk (Or.inl rfl) hran rfl rfl⟩

/-- Claim C10: a job constructed with `intro_from_midpoint` false or a
non-positive requested intro still duration has its effective intro still
duration forced to 0 at construction, and the INTRO and CONCAT stages never
run for it. -/
theorem C10_intro_forced_zero (j : Job) (env : Env)
    (h : j.intro_from_midpoint = false ∨ j.intro_still_sec_req ≤ 0) :
    j.intro_still_sec = 0 ∧
    (runJob j env).ranIntro = false ∧
    (runJob j env).ranConcat = false := by
  have h0 : j.intro_still_sec = 0 := by
    rw [Job.intro_still_sec, if_pos h]
  obtain ⟨hni, hnc, _⟩ := runJob_skip j env (Or.inr (by rw [h0]; norm_num))
  exact ⟨h0, hni, hnc⟩

theorem coreWeight_pos (j : Job) : 0 < coreWeight j := by
  rw [coreWeight]
  split <;> norm_num

theorem coreWeight_le_one (j : Job) : coreWeight j ≤ 1 := by
  rw [coreWeight]
  split <;> norm_num

theorem coreProgressVal_nonneg (w d t : ℚ) : 0 ≤ coreProgressVal w d t :=
  pyInt_nonneg _ (le_max_left 0 _)

theorem coreProgressVal_le_bound (w d t : ℚ) (c : ℤ) (hw : 0 ≤ w)
    (hc : 100 * w ≤ (c : ℚ)) : coreProgressVal w d t ≤ c := by
  rw [coreProgressVal, pyInt_eq_floor _ (le_max_left 0 _)]
  have h1 : max 0 (min (100 * w) (t / d * 100 * w)) ≤ (c : ℚ) :=
    max_le (le_trans (by positivity) hc) (le_trans (min_le_left _ _) hc)
  calc ⌊max 0 (min (100 * w) (t / d * 100 * w))⌋
      ≤ ⌊(c : ℚ)⌋ := Int.floor_le_floor h1
    _ = c := Int.floor_intCast c

theorem coreProgressVal_mono (w d : ℚ) (hw : 0 ≤ w) (hd : 0 < d)
    {t1 t2 : ℚ} (h : t1 ≤ t2) :
    coreProgressVal w d t1 ≤ coreProgressVal w d t2 := by
  rw [coreProgressVal, coreProgressVal, pyInt_eq_floor _ (le_max_left 0 _),
    pyInt_eq_floor _ (le_max_left 0 _)]
  apply Int.floor_le_floor
  have hmul : t1 / d * 100 * w ≤ t2 / d * 100 * w := by gcongr
  exact max_le_max (le_refl 0) (min_le_min (le_refl _) hmul)

theorem coreEmits_bounds (j : Job) (env : Env) :
    ∀ p ∈ coreEmits j env, 0 ≤ p ∧ p ≤ 100 := by
  intro p hp
  rw [coreEmits] at hp
  split at hp
  · obtain ⟨t, _, rfl⟩ := List.mem_map.mp hp
    refine ⟨coreProgressVal_nonneg _ _ _,
      coreProgressVal_le_bound _ _ _ 100 (le_of_lt (coreWeight_pos j)) ?_⟩
    have h1 := mul_le_mul_of_nonneg_left (coreWeight_le_one j)
      (by norm_num : (0 : ℚ) ≤ 100)
    push_cast
    linarith
  · simp at hp

theorem coreEmits_le80 (j : Job) (env : Env)
    (h : ¬ (j.disable_fades = true ∨ j.intro_still_sec ≤ 1 / 10000)) :
    ∀ p ∈ coreEmits j env, p ≤ 80 := by
  push_neg at h
  have hw : coreWeight j = 4 / 5 := by
    rw [coreWeight, if_pos (lt_trans (by norm_num) h.2)]
  intro p hp
  rw [coreEmits] at hp
  split at hp
  · obtain ⟨t, _, rfl⟩ := List.mem_map.mp hp
    exact coreProgressVal_le_bound _ _ _ 80 (by rw [hw]; norm_num)
      (by rw [hw]; push_cast; norm_num)
  · simp at hp

theorem coreEmits_chain (j : Job) (env : Env)
    (h : List.Chain' (· ≤ ·) env.coreLines) :
    List.Chain' (· ≤ ·) (coreEmits j env) := by
  rw [coreEmits]
  split
  · rename_i hd
    exact (List.chain'_map _).mpr (h.imp fun a b hab =>
      coreProgressVal_mono _ _ (le_of_lt (coreWeight_pos j)) hd hab)
  · simp

theorem mem_of_getLast_option {l : List ℤ} {x : ℤ} (h : x ∈ l.getLast?) :
    x ∈ l := by
  obtain ⟨hne, rfl⟩ := List.mem_getLast?_eq_getLast h
  exact List.getLast_mem hne

theorem chainLe_append {l₁ l₂ : List ℤ} (c : ℤ)
    (h1 : List.Chain' (· ≤ ·) l₁) (h2 : List.Chain' (· ≤ ·) l₂)
    (hb : ∀ x ∈ l₁, x ≤ c) (hh : ∀ y ∈ l₂.head?, c ≤ y) :
    List.Chain' (· ≤ ·) (l₁ ++ l₂) := by
  rw [List.chain'_append]
  exact ⟨h1, h2, fun x hx y hy =>
    le_trans (hb x (mem_of_getLast_option hx)) (hh y hy)⟩

theorem head_replicate_ge (n : ℕ) (c b : ℤ) (hcb : c ≤ b) :
    ∀ y ∈ (List.replicate n b).head?, c ≤ y := by
  intro y hy
  cases n with
  | zero => simp at hy
  | succ m =>
      rw [List.replicate_succ, List.head?_cons] at hy
      simp only [Option.mem_def, Option.some.injEq] at hy
      rw [← hy]
      exact hcb

theorem emsBase_bounds (j : Job) (env : Env) :
    ∀ p ∈ (0 :: coreEmits j env), 0 ≤ p ∧ p ≤ 100 := by
  intro p hp
  rcases List.mem_cons.mp hp with rfl | hp
  · exact ⟨le_refl 0, by norm_num⟩
  · exact coreEmits_bounds j env p hp

theorem emsBase_chain (j : Job) (env : Env)
    (h : List.Chain' (· ≤ ·) env.coreLines) :
    List.Chain' (· ≤ ·) (0 :: coreEmits j env) := by
  rw [List.chain'_cons']
  exact ⟨fun y hy => (coreEmits_bounds j env y (List.mem_of_mem_head? hy)).1,
    coreEmits_chain j env h⟩

theorem mem_append_bound {A B : List ℤ} {c : ℤ}
    (hA : ∀ x ∈ A, x ≤ c) (hB : ∀ x ∈ B, x ≤ c) :
    ∀ x ∈ A ++ B, x ≤ c :=
  fun x hx => (List.mem_append.mp hx).elim (hA x) (hB x)

theorem mem_replicate_bound {c b : ℤ} (n : ℕ) (hbc : b ≤ c) :
    ∀ x ∈ List.replicate n b, x ≤ c :=
  fun _ hx => (List.eq_of_mem_replicate hx) ▸ hbc

/-- Claim C9 (amended): every emitted progress value lies in [0, 100]; when
the elapsed times parsed from the CORE encoder output are non-decreasing the
whole emitted sequence is monotonically non-decreasing; and on overall
success the final emission is exactly 100.  (As the counterexample shows,
100 can also be emitted mid-CORE on a job that subsequently fails, and a
non-monotone encoder timestamp sequence yields a non-monotone progress
sequence, so the claim's exactly-on-success property does not hold.) -/
theorem C9_progress_contract (j : Job) (env : Env) :
    (∀ p ∈ (runJob j env).emits, 0 ≤ p ∧ p ≤ 100) ∧
    (List.Chain' (· ≤ ·) env.coreLines →
      List.Chain' (· ≤ ·) (runJob j env).emits) ∧
    ((runJob j env).outcome = .success →
      (runJob j env).emits.getLast? = some 100) := by
  rcases hest : estimateBitrate j env.probeRaises j.effective_duration with
      b | m | m
  case err =>
    rw [runJob]
    simp only [hest]
    exact ⟨by simp, by simp, by simp⟩
  case exn =>
    rw [runJob]
    simp only [hest]
    exact ⟨by simp, by simp, by simp⟩
  case ok =>
    rw [runJob]
    simp only [hest]
    rcases env.coreExit with _ | _
    · rw [if_pos rfl]
      exact ⟨emsBase_bounds j env, emsBase_chain j env,
        fun h => JobOutcome.noConfusion h⟩
    · rw [if_neg (by simp : ¬ (true = false))]
      by_cases hskip : j.disable_fades = true ∨ j.intro_still_sec ≤ 1 / 10000
      · rw [if_pos hskip]
        rcases env.moveOk with _ | _
        · rw [if_neg (by simp : ¬ (false = true))]
          exact ⟨emsBase_bounds j env, emsBase_chain j env,
            fun h => JobOutcome.noConfusion h⟩
        · rw [if_pos rfl]
          refine ⟨?_, ?_, fun _ => List.getLast?_concat _⟩
          · intro p hp
            rcases List.mem_append.mp hp with hp | hp
            · exact emsBase_bounds j env p hp
            · obtain rfl := List.mem_singleton.mp hp
              exact ⟨by norm_num, le_refl 100⟩
          · intro h
            refine chainLe_append 100 (emsBase_chain j env h) (by simp)
              (fun x hx => (emsBase_bounds j env x hx).2) ?_
            intro y hy
            simp only [List.head?_cons, Option.mem_def, Option.some.injEq] at hy
            omega
      · rw [if_neg hskip]
        have h80 := coreEmits_le80 j env hskip
        have hbase95 : ∀ x ∈ (0 :: coreEmits j env), x ≤ 95 := by
          intro x hx
          rcases List.mem_cons.mp hx with rfl | hx
          · norm_num
          · exact le_trans (h80 x hx) (by norm_num)
        have hchain95 : List.Chain' (· ≤ ·) env.coreLines →
            List.Chain' (· ≤ ·)
              ((0 :: coreEmits j env) ++ List.replicate env.introLines 95) :=
          fun h => chainLe_append 95 (emsBase_chain j env h)
            (List.chain'_replicate_of_rel _ (le_refl 95)) hbase95
            (head_replicate_ge _ _ _ (le_refl 95))
        have hbounds95 : ∀ p ∈ (0 :: coreEmits j env) ++
            List.replicate env.introLines 95, 0 ≤ p ∧ p ≤ 100 := by
          intro p hp
          rcases List.mem_append.mp hp with hp | hp
          · exact emsBase_bounds j env p hp
          · rw [List.eq_of_mem_replicate hp]
            exact ⟨by norm_num, by norm_num⟩
        rcases env.introExit with _ | _
        · rw [if_pos rfl]
          exact ⟨hbounds95, hchain95, fun h => JobOutcome.noConfusion h⟩
        · rw [if_neg (by simp : ¬ (true = false))]
          have hchain99 : List.Chain' (· ≤ ·) env.coreLines →
              List.Chain' (· ≤ ·)
                (((0 :: coreEmits j env) ++ List.replicate env.introLines 95) ++
                  List.replicate env.concatLines 99) :=
            fun h => chainLe_append 99 (hchain95 h)
              (List.chain'_replicate_of_rel _ (le_refl 99))
              (mem_append_bound
                (fun x hx => le_trans (hbase95 x hx) (by norm_num))
                (mem_replicate_bound _ (by norm_num)))
              (head_replicate_ge _ _ _ (le_refl 99))
          have hbounds99 : ∀ p ∈ ((0 :: coreEmits j env) ++
              List.replicate env.introLines 95) ++
              List.replicate env.concatLines 99, 0 ≤ p ∧ p ≤ 100 := by
            intro p hp
            rcases List.mem_append.mp hp with hp | hp
            · exact hbounds95 p hp
            · rw [List.eq_of_mem_replicate hp]
              exact ⟨by norm_num, by norm_num⟩
          rcases env.concatExit with _ | _
          · rw [if_pos rfl]
            exact ⟨hbounds99, hchain99, fun h => JobOutcome.noConfusion h⟩
          · rw [if_neg (by simp : ¬ (true = false))]
            refine ⟨?_, ?_, fun _ => List.getLast?_concat _⟩
            · intro p hp
              rcases List.mem_append.mp hp with hp | hp
              · exact hbounds99 p hp
              · obtain rfl := List.mem_singleton.mp hp
                exact ⟨by norm_num, le_refl 100⟩
            · intro h
              refine chainLe_append 100 (hchain99 h) (by simp)
                (fun x hx => (hbounds99 x hx).2) ?_
              intro y hy
              simp only [List.head?_cons, Option.mem_def, Option.some.injEq] at hy
              omega

/-- Claim C9 is false as stated: on a no-intro job (CORE weight 1.0) whose
encoder output reaches the full core duration before the process fails, the
emitted sequence is [0, 100, 33] — it contains 100 on a failure path and is
not monotonically non-decreasing. -/
theorem C9_counterexample :
    (runJob c7job env9).emits = [0, 100, 33] ∧
    (runJob c7job env9).outcome = .failure "Core encode failed (STEP 1/3)." ∧
    100 ∈ (runJob c7job env9).emits ∧
    ¬ List.Chain' (· ≤ ·) (runJob c7job env9).emits := by
  have heff : c7job.effective_duration = 30 := by
    norm_num [Job.effective_duration, Job.duration_corrected_run,
      Job.intro_len_for_size, Job.intro_still_sec, speedDiv, trimWindow, c7job]
  have hest : estimateBitrate c7job env9.probeRaises
      c7job.effective_duration = .ok 12160 := by
    rw [heff]
    norm_num [estimateBitrate, Job.keep_highest_res, Job.target_mb, pyInt,
      env9, c7job]
  have hd : c7job.duration_corrected_run = 30 := by
    norm_num [Job.duration_corrected_run, speedDiv, trimWindow, c7job]
  have hw1 : coreWeight c7job = 1 := by
    rw [coreWeight]
    norm_num [Job.intro_still_sec, c7job]
  have hemits : (runJob c7job env9).emits = [0, 100, 33] := by
    rw [runJob, hest]
    norm_num [env9, coreEmits, hd, hw1, coreProgressVal, pyInt]
  have houtcome : (runJob c7job env9).outcome =
      .failure "Core encode failed (STEP 1/3)." := by
    rw [runJob, hest]
    norm_num [env9]
  refine ⟨hemits, houtcome, ?_, ?_⟩
  · rw [hemits]
    simp
  · rw [hemits]
    simp only [List.chain'_cons, List.chain'_singleton, and_true]
    omega

/-- Evaluation of the cleanup bug behind claim C1: a job that reaches the
CONCAT stage writes the concat list file to `concat_list_path`, but the
`finally` cleanup loop only removes `core_path`, `intro_path` and
`concat_path` — and `concat_path` is still `None` — so even on a fully
successful run the concat list file remains on disk while the core and
intro artifacts are removed. -/
theorem C1_concat_list_leak :
    (runJob c1job envAllOk).outcome = .success ∧
    (runJob c1job envAllOk).ranConcat = true ∧
    (runJob c1job envAllOk).concatListCreated = true ∧
    (runJob c1job envAllOk).concatListDeleted = false ∧
    (runJob c1job envAllOk).coreFileLeft = false ∧
    (runJob c1job envAllOk).introFileLeft = false := by
  have htrim : trimWindow c1job.disable_fades c1job.start_time c1job.end_time
      c1job.original_total_duration =
      { in_ss := 17 / 2, in_t := 33, vfade_in_d := 3 / 2, vfade_out_d := 3 / 2,
        vfade_out_st := 63 / 2, output_clip_duration := 33 } := by
    norm_num [trimWindow, FADE_DUR, EPS, c1job]
  have hintro : c1job.intro_still_sec = 2 := by
    norm_num [Job.intro_still_sec, c1job]
  have heff : c1job.effective_duration = 35 := by
    rw [Job.effective_duration, Job.duration_corrected_run, htrim,
      Job.intro_len_for_size, hintro]
    norm_num [speedDiv, c1job]
  have hest : estimateBitrate c1job envAllOk.probeRaises
      c1job.effective_duration = .ok 10404 := by
    rw [heff]
    norm_num [estimateBitrate, Job.keep_highest_res, Job.target_mb, pyInt,
      envAllOk, c1job]
  refine ⟨?_, ?_, ?_, ?_, ?_, ?_⟩ <;>
    · rw [runJob, hest]
      norm_num [Job.intro_still_sec, c1job, envAllOk]

/-- Witness for C10: a positive requested intro without the from-midpoint
flag is zeroed and produces no INTRO/CONCAT stage. -/
theorem C10_intro_forced_zero_witness :
    (c10job.intro_from_midpoint = false ∨ c10job.intro_still_sec_req ≤ 0) ∧
    (c10job.intro_still_sec = 0 ∧
     (runJob c10job envAllOk).ranIntro = false ∧
     (runJob c10job envAllOk).ranConcat = false) :=
  ⟨Or.inl rfl, C10_intro_forced_zero c10job envAllOk (Or.inl rfl)⟩

theorem ceil_half_lt (x : ℚ) (h : 2 < x) : ⌈x / 2⌉₊ < ⌈x⌉₊ := by
  have h3 : 2 < ⌈x⌉₊ := Nat.lt_ceil.mpr (by push_cast; linarith)
  have hle : x ≤ (⌈x⌉₊ : ℚ) := Nat.le_ceil x
  have hstep : ⌈x / 2⌉₊ ≤ ⌈x⌉₊ - 1 := by
    refine Nat.ceil_le.mpr ?_
    have hc : ((⌈x⌉₊ - 1 : ℕ) : ℚ) = (⌈x⌉₊ : ℚ) - 1 := by
      have h1 : 1 ≤ ⌈x⌉₊ := by omega
      push_cast [h1]
      ring
    rw [hc]
    linarith
  omega

theorem roundTiesEven_close (q : ℚ) : |((roundTiesEven q : ℤ) : ℚ) - q| ≤ 1 / 2 := by
  have hf0 : 0 ≤ q - ⌊q⌋ := by linarith [Int.floor_le q]
  have hf1 : q - ⌊q⌋ < 1 := by linarith [Int.lt_floor_add_one q]
  rw [roundTiesEven]
  split_ifs with h1 h2 h3 <;>
    · push_cast
      rw [abs_le]
      constructor <;> linarith

theorem round3_close (q : ℚ) : |round3 q - q| ≤ 1 / 2000 := by
  have h := roundTiesEven_close (q * 1000)
  rw [round3]
  have heq : (roundTiesEven (q * 1000) : ℚ) / 1000 - q =
      ((roundTiesEven (q * 1000) : ℚ) - q * 1000) / 1000 := by ring
  rw [heq, abs_div]
  have habs : |(1000 : ℚ)| = 1000 := by norm_num
  rw [habs]
  linarith

theorem clamp_close (x r : ℚ) (hlo : 1 / 2 ≤ r) (hhi : r ≤ 2) :
    |min 2 (max (1 / 2) x) - r| ≤ |x - r| := by
  rcases le_total x (1 / 2) with h | h
  · rw [max_eq_left h, min_eq_right (by norm_num : (1 : ℚ) / 2 ≤ 2),
      abs_sub_comm ((1 : ℚ) / 2) r, abs_of_nonneg (by linarith),
      abs_sub_comm x r, abs_of_nonneg (by linarith)]
    linarith
  · rw [max_eq_right h]
    rcases le_total x 2 with h2 | h2
    · rw [min_eq_right h2]
    · rw [min_eq_left h2, abs_of_nonneg (by linarith : (0 : ℚ) ≤ 2 - r),
        abs_of_nonneg (by linarith)]
      linarith

theorem tempoKeep_two : tempoKeep 2 = some 2 := by
  rw [tempoKeep,
    if_pos (by rw [show (2 : ℚ) - 1 = 1 by norm_num, abs_one]; norm_num)]
  norm_num [clampTempo, round3, roundTiesEven, min_def, max_def]

theorem tempoKeep_half : tempoKeep (1 / 2) = some (1 / 2) := by
  rw [tempoKeep,
    if_pos (by
      rw [show (1 : ℚ) / 2 - 1 = -(1 / 2) by norm_num, abs_neg,
        abs_of_nonneg (by norm_num : (0 : ℚ) ≤ 1 / 2)]
      norm_num)]
  norm_num [clampTempo, round3, roundTiesEven, min_def, max_def]

theorem filterMap_tempoKeep_replicate (n : ℕ) (a b : ℚ)
    (hab : tempoKeep a = some b) :
    (List.replicate n a).filterMap tempoKeep = List.replicate n b := by
  induction n with
  | zero => simp
  | succ m ih =>
      rw [List.replicate_succ, List.replicate_succ]
      simp only [List.filterMap_cons, hab]
      rw [ih]

theorem prod_filterMap_chain (k : ℕ) (a b r : ℚ) (hab : tempoKeep a = some b) :
    ((List.replicate k a ++ [r]).filterMap tempoKeep).prod =
      b ^ k * (if 1 / 1000 < |r - 1| then clampTempo r else 1) := by
  rw [List.filterMap_append, filterMap_tempoKeep_replicate k a b hab,
    List.prod_append, List.prod_replicate]
  congr 1
  simp only [List.filterMap_cons, List.filterMap_nil]
  rw [tempoKeep]
  split_ifs with h
  · simp
  · simp

theorem chainUp_shape (s : ℚ) (hs : 1 ≤ s) :
    ∃ k : ℕ, ∃ r : ℚ, chainUp s = List.replicate k 2 ++ [r] ∧
      s = 2 ^ k * r ∧ 1 ≤ r ∧ r ≤ 2 := by
  by_cases h : 2 < s
  · rw [chainUp.eq_def, dif_pos h]
    obtain ⟨k, r, h1, h2, h3, h4⟩ := chainUp_shape (s / 2) (by linarith)
    refine ⟨k + 1, r, ?_, ?_, h3, h4⟩
    · rw [List.replicate_succ, List.cons_append, h1]
    · have hs2 : s = 2 * (s / 2) := by ring
      rw [hs2, h2]
      ring
  · rw [chainUp.eq_def, dif_neg h]
    exact ⟨0, s, by simp, by ring, hs, by linarith [not_lt.mp h]⟩
termination_by ⌈s⌉₊
decreasing_by exact ceil_half_lt s h

theorem chainDown_shape (s : ℚ) (hpos : 0 < s) (hlt : s < 1) :
    ∃ k : ℕ, ∃ r : ℚ, chainDown s = List.replicate k (1 / 2) ++ [r] ∧
      s = (1 / 2) ^ k * r ∧ 1 / 2 ≤ r ∧ r < 1 := by
  by_cases h : 0 < s ∧ s < 1 / 2
  · rw [chainDown.eq_def, dif_pos h]
    have hdbl : s / (1 / 2) = 2 * s := by ring
    obtain ⟨k, r, h1, h2, h3, h4⟩ := chainDown_shape (s / (1 / 2))
      (by rw [hdbl]; linarith) (by rw [hdbl]; linarith [h.2])
    refine ⟨k + 1, r, ?_, ?_, h3, h4⟩
    · rw [List.replicate_succ, List.cons_append, h1]
    · have hs2 : s = (1 / 2) * (s / (1 / 2)) := by ring
      rw [hs2, h2]
      ring
  · rw [chainDown.eq_def, dif_neg h]
    have hr : 1 / 2 ≤ s := by
      rcases not_and_or.mp h with hc | hc
      · exact absurd hpos hc
      · linarith [not_lt.mp hc]
    exact ⟨0, s, by simp, by ring, hr, hlt⟩
termination_by ⌈s⁻¹⌉₊
decreasing_by
  have hinv : (s / (1 / 2))⁻¹ = s⁻¹ / 2 := by field_simp
  rw [hinv]
  refine ceil_half_lt s⁻¹ ?_
  rw [inv_eq_one_div, lt_div_iff₀ h.1]
  linarith [h.2]

theorem atempoChain_mem (s : ℚ) : ∀ x ∈ atempoChain s, 1 / 2 ≤ x ∧ x ≤ 2 := by
  intro x hx
  rw [atempoChain] at hx
  obtain ⟨a, _, ha⟩ := List.mem_filterMap.mp hx
  rw [tempoKeep] at ha
  split_ifs at ha
  injection ha with ha
  rw [← ha, clampTempo]
  exact ⟨le_min (by norm_num) (le_max_left _ _), min_le_left _ _⟩

theorem atempoChain_one : atempoChain 1 = [] := by
  rw [atempoChain, if_pos (le_refl (1 : ℚ)), chainUp.eq_def,
    dif_neg (by norm_num : ¬ (2 : ℚ) < 1)]
  simp only [List.filterMap_cons, List.filterMap_nil]
  rw [tempoKeep, if_neg (by rw [sub_self, abs_zero]; norm_num)]

theorem atempoChain_prod_close (s : ℚ) (hs : 0 < s) :
    |(atempoChain s).prod - s| ≤ s / 500 := by
  rw [atempoChain]
  by_cases h1 : 1 ≤ s
  · rw [if_pos h1]
    obtain ⟨k, r, hch, hsr, hr1, hr2⟩ := chainUp_shape s h1
    rw [hch, prod_filterMap_chain k 2 2 r tempoKeep_two]
    have h2k : (0 : ℚ) < 2 ^ k := by positivity
    have hks : (2 : ℚ) ^ k ≤ s := by
      calc (2 : ℚ) ^ k = 2 ^ k * 1 := by ring
        _ ≤ 2 ^ k * r := mul_le_mul_of_nonneg_left hr1 (le_of_lt h2k)
        _ = s := hsr.symm
    split_ifs with hkeep
    · have hc : |clampTempo r - r| ≤ 1 / 2000 := by
        rw [clampTempo]
        exact le_trans (clamp_close (round3 r) r (by linarith) hr2)
          (round3_close r)
      have heq : |2 ^ k * clampTempo r - s| = 2 ^ k * |clampTempo r - r| := by
        rw [hsr, ← mul_sub, abs_mul, abs_of_pos h2k]
      rw [heq]
      calc (2 : ℚ) ^ k * |clampTempo r - r| ≤ 2 ^ k * (1 / 2000) :=
            mul_le_mul_of_nonneg_left hc (le_of_lt h2k)
        _ ≤ s * (1 / 2000) := mul_le_mul_of_nonneg_right hks (by norm_num)
        _ ≤ s / 500 := by linarith
    · push_neg at hkeep
      have heq : |2 ^ k * 1 - s| = 2 ^ k * |1 - r| := by
        rw [hsr, ← mul_sub, abs_mul, abs_of_pos h2k]
      rw [heq]
      calc (2 : ℚ) ^ k * |1 - r| ≤ 2 ^ k * (1 / 1000) :=
            mul_le_mul_of_nonneg_left (by rw [abs_sub_comm]; exact hkeep)
              (le_of_lt h2k)
        _ ≤ s * (1 / 1000) := mul_le_mul_of_nonneg_right hks (by norm_num)
        _ ≤ s / 500 := by linarith
  · rw [if_neg h1]
    push_neg at h1
    obtain ⟨k, r, hch, hsr, hr1, hr2⟩ := chainDown_shape s hs h1
    rw [hch, prod_filterMap_chain k (1 / 2) (1 / 2) r tempoKeep_half]
    have h2k : (0 : ℚ) < (1 / 2) ^ k := by positivity
    have hks : ((1 : ℚ) / 2) ^ k ≤ 2 * s := by
      have hh := mul_le_mul_of_nonneg_left hr1 (le_of_lt h2k)
      calc ((1 : ℚ) / 2) ^ k = 2 * ((1 / 2) ^ k * (1 / 2)) := by ring
        _ ≤ 2 * ((1 / 2) ^ k * r) := by linarith
        _ = 2 * s := by rw [← hsr]
    split_ifs with hkeep
    · have hc : |clampTempo r - r| ≤ 1 / 2000 := by
        rw [clampTempo]
        exact le_trans (clamp_close (round3 r) r hr1 (by linarith))
          (round3_close r)
      have heq : |(1 / 2 : ℚ) ^ k * clampTempo r - s| =
          (1 / 2) ^ k * |clampTempo r - r| := by
        rw [hsr, ← mul_sub, abs_mul, abs_of_pos h2k]
      rw [heq]
      calc ((1 : ℚ) / 2) ^ k * |clampTempo r - r| ≤ (1 / 2) ^ k * (1 / 2000) :=
            mul_le_mul_of_nonneg_left hc (le_of_lt h2k)
        _ ≤ (2 * s) * (1 / 2000) := mul_le_mul_of_nonneg_right hks (by norm_num)
        _ ≤ s / 500 := by linarith
    · push_neg at hkeep
      have heq : |(1 / 2 : ℚ) ^ k * 1 - s| = (1 / 2) ^ k * |1 - r| := by
        rw [hsr, ← mul_sub, abs_mul, abs_of_pos h2k]
      rw [heq]
      calc ((1 : ℚ) / 2) ^ k * |1 - r| ≤ (1 / 2) ^ k * (1 / 1000) :=
            mul_le_mul_of_nonneg_left (by rw [abs_sub_comm]; exact hkeep)
              (le_of_lt h2k)
        _ ≤ (2 * s) * (1 / 1000) := mul_le_mul_of_nonneg_right hks (by norm_num)
        _ ≤ s / 500 := by linarith

/-- Claim C6 is false as stated: at speed factor 8.004 the loop factors out
three 2.0s, the remainder 1.0005 is within 1e-3 of 1.0 and is dropped, so
the chain is [2, 2, 2] with product 8, and |8 - 8.004| = 0.004 exceeds the
claimed 1e-3 tolerance. -/
theorem C6_counterexample :
    atempoChain (8004 / 1000) = [2, 2, 2] ∧
    ¬ (|(atempoChain (8004 / 1000)).prod - 8004 / 1000| ≤ 1 / 1000) := by
  have hdrop : tempoKeep (2001 / 2000) = none := by
    rw [tempoKeep,
      if_neg (by
        rw [show (2001 : ℚ) / 2000 - 1 = 1 / 2000 by norm_num,
          abs_of_nonneg (by norm_num : (0 : ℚ) ≤ 1 / 2000)]
        norm_num)]
  have hch : chainUp (8004 / 1000) = [2, 2, 2, 2001 / 2000] := by
    rw [chainUp.eq_def, dif_pos (by norm_num : (2 : ℚ) < 8004 / 1000)]
    rw [show (8004 : ℚ) / 1000 / 2 = 4002 / 1000 by norm_num]
    rw [chainUp.eq_def, dif_pos (by norm_num : (2 : ℚ) < 4002 / 1000)]
    rw [show (4002 : ℚ) / 1000 / 2 = 2001 / 1000 by norm_num]
    rw [chainUp.eq_def, dif_pos (by norm_num : (2 : ℚ) < 2001 / 1000)]
    rw [show (2001 : ℚ) / 1000 / 2 = 2001 / 2000 by norm_num]
    rw [chainUp.eq_def, dif_neg (by norm_num : ¬ (2 : ℚ) < 2001 / 2000)]
  have hca : atempoChain (8004 / 1000) = [2, 2, 2] := by
    rw [atempoChain, if_pos (by norm_num : (1 : ℚ) ≤ 8004 / 1000), hch]
    simp only [List.filterMap_cons, List.filterMap_nil, tempoKeep_two, hdrop]
  refine ⟨hca, ?_⟩
  rw [hca]
  simp only [List.prod_cons, List.prod_nil]
  rw [show (2 : ℚ) * (2 * (2 * 1)) - 8004 / 1000 = -(4 / 1000) by norm_num,
    abs_neg, abs_of_nonneg (by norm_num : (0 : ℚ) ≤ 4 / 1000)]
  norm_num

/-- Claim C6 (amended): for every positive speed factor the generated audio
tempo chain has every element in [0.5, 2.0] and a factor of exactly 1.0
contributes no audio tempo operation; the product of the chain's elements
equals the requested factor only within a relative tolerance of 1/500 (the
dropped near-1.0 remainder and the 3-decimal rounding are amplified by the
factored-out 2.0s), not within the absolute 1e-3 the claim states. -/
theorem C6_tempo_chain (s : ℚ) (hs : 0 < s) :
    (∀ x ∈ atempoChain s, 1 / 2 ≤ x ∧ x ≤ 2) ∧
    |(atempoChain s).prod - s| ≤ s / 500 ∧
    (s = 1 → atempoChain s = []) :=
  ⟨atempoChain_mem s, atempoChain_prod_close s hs,
    fun h => by rw [h]; exact atempoChain_one⟩

/-- Witness for the amended C6 at speed factor 3. -/
theorem C6_tempo_chain_witness :
    0 < (3 : ℚ) ∧
    ((∀ x ∈ atempoChain 3, 1 / 2 ≤ x ∧ x ≤ 2) ∧
     |(atempoChain 3).prod - 3| ≤ 3 / 500 ∧
     ((3 : ℚ) = 1 → atempoChain 3 = [])) :=
  ⟨by norm_num, C6_tempo_chain 3 (by norm_num)⟩
